import Mathlib

/-!
# Verification of the RAG orchestration core

Shallow embedding of the RAG (retrieval-augmented generation) core of the
notebook `S1 - Introduction to LangChain and RAG.ipynb`: document loading,
vector-store lifecycle (`initialize_vector_store`), similarity retrieval,
the tool registry built from `tools_by_name`, and the single-round
tool-call orchestration of the final cells.

The vector store itself is the external Chroma library; its query behaviour
is modelled from the specification (brute-force similarity scan, descending
similarity, ties broken by insertion order). Everything else is translated
directly from the notebook's code cells.
-/

/-- A corpus record: `langchain_core.documents.Document`, i.e. an id,
a `page_content` text and a string-keyed metadata mapping. -/
structure DocumentRecord where
  id : String
  text : String
  metadata : List (String × String)
deriving Repr, DecidableEq

/-- Error taxonomy of the design: corpus ingestion, index lifecycle and
tool-dispatch failures. -/
inductive LoadError where
  | unreadable
deriving Repr, DecidableEq

/-- Index lifecycle errors named by the design. -/
inductive BuildError where
  | alreadyBuilt
  | embeddingError
deriving Repr, DecidableEq

/-- Query-time errors of the vector index. -/
inductive IndexError where
  | emptyIndex
  | invalidK
deriving Repr, DecidableEq

/-- Tool-dispatch and turn errors: an unregistered tool name, or a Python
`KeyError` raised while formatting the retrieved documents. -/
inductive TurnError where
  | unknownTool (name : String)
  | keyError (key : String)
deriving Repr, DecidableEq

/-- `load_documents(pickle_filepath)`: opens the pickle file and returns
whatever list it holds. The file system is abstracted as an `Option`:
`none` is an unreadable source (the `open`/`pickle.load` call raises),
`some recs` is a readable pickle holding `recs`. The notebook code performs
no validation of the loaded records. -/
def load_documents (source : Option (List DocumentRecord)) :
    Except LoadError (List DocumentRecord) :=
  match source with
  | none => .error .unreadable
  | some recs => .ok recs

/-- The state of the (global, reset-in-place) Chroma collection: the stored
records paired with their embedding vectors. -/
structure ChromaState where
  entries : List (DocumentRecord × List ℚ)
deriving Repr, DecidableEq

/-- `Chroma().reset_collection()`: clears all vectors and ids. -/
def reset_collection (_s : ChromaState) : ChromaState := ⟨[]⟩

/-- `Chroma.from_documents(documents=..., embedding=...)`: adds one
embedding vector per document chunk to the collection. -/
def from_documents (embed : String → List ℚ) (chunks : List DocumentRecord)
    (s : ChromaState) : ChromaState :=
  ⟨s.entries ++ chunks.map (fun c => (c, embed c.text))⟩

/-- `initialize_vector_store(document_chunks)`: resets the Chroma
collection, then initializes the vector store from the chunks. Translated
from the notebook; it is total (never raises a lifecycle error), which the
`Except` result records explicitly. -/
def initialize_vector_store (embed : String → List ℚ)
    (chunks : List DocumentRecord) (s : ChromaState) :
    Except BuildError ChromaState :=
  .ok (from_documents embed chunks (reset_collection s))

/-- Ranking order used by the query scan: a scored entry `(i, r, score)`
precedes another iff its score is strictly larger, or the scores are equal
and its insertion index `i` is not larger. Modelled from the spec:
descending similarity, ties broken by original insertion order. -/
def rankLE (a b : ℕ × DocumentRecord × ℚ) : Bool :=
  decide (b.2.2 < a.2.2) || (decide (a.2.2 = b.2.2) && decide (a.1 ≤ b.1))

/-- `rankLE` as a relation, the sorting order of the ranked scan. -/
def rankRel (a b : ℕ × DocumentRecord × ℚ) : Prop :=
  rankLE a b = true

instance : DecidableRel rankRel :=
  fun a b => inferInstanceAs (Decidable (rankLE a b = true))

instance : IsTotal (ℕ × DocumentRecord × ℚ) rankRel := by
  constructor
  intro a b
  simp only [rankRel, rankLE, Bool.or_eq_true, Bool.and_eq_true,
    decide_eq_true_eq]
  rcases lt_trichotomy a.2.2 b.2.2 with h | h | h
  · exact Or.inr (Or.inl h)
  · rcases Nat.le_total a.1 b.1 with hn | hn
    · exact Or.inl (Or.inr ⟨h, hn⟩)
    · exact Or.inr (Or.inr ⟨h.symm, hn⟩)
  · exact Or.inl (Or.inl h)

instance : IsTrans (ℕ × DocumentRecord × ℚ) rankRel := by
  constructor
  intro a b c hab hbc
  simp only [rankRel, rankLE, Bool.or_eq_true, Bool.and_eq_true,
    decide_eq_true_eq] at hab hbc ⊢
  rcases hab with hab | ⟨hab, hab2⟩
  · rcases hbc with hbc | ⟨hbc, _⟩
    · exact Or.inl (lt_trans hbc hab)
    · exact Or.inl (hbc ▸ hab)
  · rcases hbc with hbc | ⟨hbc, hbc2⟩
    · exact Or.inl (lt_of_lt_of_le hbc (le_of_eq hab.symm))
    · exact Or.inr ⟨hab.trans hbc, le_trans hab2 hbc2⟩

/-- Modelled from the spec: each stored entry tagged with its insertion
index and scored against the query vector by the similarity function. -/
def scoredEntries (sim : List ℚ → List ℚ → ℚ) (s : ChromaState)
    (v : List ℚ) : List (ℕ × DocumentRecord × ℚ) :=
  s.entries.enum.map (fun p => (p.1, p.2.1, sim v p.2.2))

/-- Modelled from the spec: the brute-force similarity scan of the vector
index (the Chroma query internals are not part of the repository): the
scored entries sorted by descending similarity, ties broken by insertion
index. -/
def rankedEntries (sim : List ℚ → List ℚ → ℚ) (s : ChromaState)
    (v : List ℚ) : List (ℕ × DocumentRecord × ℚ) :=
  List.insertionSort rankRel (scoredEntries sim s v)

/-- Modelled from the spec: the top-`k` slice of the ranked scan, with the
insertion index dropped — the `RetrievalResult` sequence of
(record, similarity) pairs. -/
def queryList (sim : List ℚ → List ℚ → ℚ) (s : ChromaState)
    (v : List ℚ) (k : ℕ) : List (DocumentRecord × ℚ) :=
  ((rankedEntries sim s v).take k).map (fun t => (t.2.1, t.2.2))

/-- Modelled from the spec: `query(vector, k)` of the vector index — fails
with `EmptyIndexError` on an empty index, `InvalidKError` on `k ≤ 0`, and
otherwise returns the up-to-`k` nearest records. -/
def query (sim : List ℚ → List ℚ → ℚ) (s : ChromaState)
    (v : List ℚ) (k : ℤ) : Except IndexError (List (DocumentRecord × ℚ)) :=
  if s.entries = [] then .error .emptyIndex
  else if k ≤ 0 then .error .invalidK
  else .ok (queryList sim s v k.toNat)

/-- Modelled from the spec: the retriever wraps `query` with a fixed `k`
and a fixed embedding function turning the query text into a vector
(`vector_store.as_retriever(search_kwargs={"k": RETRIEVAL_K})`). -/
def retrieve (sim : List ℚ → List ℚ → ℚ) (embed : String → List ℚ)
    (s : ChromaState) (k : ℤ) (query_text : String) :
    Except IndexError (List (DocumentRecord × ℚ)) :=
  query sim s (embed query_text) k

/-- A tool-call request as emitted by the model:
`tool_call = {"name": ..., "args": ..., "id": ...}`. -/
structure ToolCallRequest where
  name : String
  args : List (String × String)
  call_id : String
deriving Repr, DecidableEq

/-- A tool-call result fed back into the conversation, keyed by the
request's `call_id`. -/
structure ToolCallResult where
  call_id : String
  payload : String
deriving Repr, DecidableEq

/-- Message roles of the conversation protocol. -/
inductive Role where
  | system
  | user
  | assistant
  | tool
deriving Repr, DecidableEq

/-- One entry of the ConversationState: a role, a content string, and for
`ToolMessage` entries the correlating `tool_call_id`. -/
structure Message where
  role : Role
  content : String
  tool_call_id : Option String
deriving Repr, DecidableEq

/-- A model response: `{content, tool_calls}` as returned by
`rag_model.invoke` / `base_model.invoke`. -/
structure ModelResponse where
  content : String
  tool_calls : List ToolCallRequest
deriving Repr, DecidableEq

/-- The tool registry `tools_by_name`: a mapping from a tool name to its
handler, which maps the call's arguments to retrieved documents. -/
def ToolRegistry : Type :=
  List (String × (List (String × String) → List DocumentRecord))

/-- One formatted block of `documents_str`:
the f-string body `{doc.metadata['Headline']}\n\n{doc.page_content}\n` of
the comprehension. The `['Headline']` subscript raises a `KeyError` when
the metadata lacks the key. -/
def formatDocs : List DocumentRecord → Except TurnError (List String)
  | [] => .ok []
  | d :: ds =>
    match d.metadata.lookup "Headline" with
    | none => .error (.keyError "Headline")
    | some h =>
      (formatDocs ds).map (fun rest => (h ++ "\n\n" ++ d.text ++ "\n") :: rest)

/-- `documents_str = "\n\n".join([... for doc in documents])`, propagating
the `KeyError` of a document without a `Headline` metadata entry. -/
def documents_str (docs : List DocumentRecord) : Except TurnError String :=
  (formatDocs docs).map (String.intercalate "\n\n")

/-- `dispatch` of the tool registry: look the request's name up in
`tools_by_name` (`KeyError` → `UnknownToolError` when absent), invoke the
handler on the call's arguments, format the retrieved documents, and
return the payload keyed by the request's `call_id`
(`ToolMessage(..., tool_call_id=tool_call["id"])`). -/
def dispatch (registry : ToolRegistry) (req : ToolCallRequest) :
    Except TurnError ToolCallResult :=
  match registry.lookup req.name with
  | none => .error (.unknownTool req.name)
  | some handler =>
    match documents_str (handler req.args) with
    | .error e => .error e
    | .ok payload => .ok ⟨req.call_id, payload⟩

/-- States of the orchestrator's turn state machine. -/
inductive TurnState where
  | INIT
  | MODEL_CALLED
  | TOOL_REQUESTED
  | TOOL_EXECUTED
  | MODEL_RECALLED
  | DIRECT_ANSWERED
  | DONE
deriving Repr, DecidableEq

/-- Outcome of a completed turn: the final state, the final
ConversationState, the log of requests dispatched through the tool
registry, and the final answer. -/
structure TurnOutcome where
  state : TurnState
  messages : List Message
  dispatchLog : List ToolCallRequest
  answer : String
deriving Repr, DecidableEq

/-- The RAG system prompt of the notebook. -/
def RAG_PROMPT : String :=
  "\nYou are a Financial Analyst with access to a Bloomberg Financial News database.\n\nQuery the database to help the client with their request. Give a succinct and clear response based on the information you find.\n"

/-- The initial ConversationState of a turn: the RAG system prompt and the
client request. -/
def initialMessages (request : String) : List Message :=
  [⟨.system, RAG_PROMPT, none⟩, ⟨.user, request, none⟩]

/-- One orchestrated turn, translated from the final notebook cells:
assemble system + user messages, invoke the tool-aware model; if the
response carries no tool calls its content is the final answer; otherwise
take the first tool-call request only and dispatch it through the tool
registry (an unknown name leaves the turn at `TOOL_REQUESTED`; a
`KeyError` while formatting the documents aborts at `TOOL_EXECUTED`),
append the assistant message and the `tool`-role `ToolMessage` keyed by
the request's id, and re-invoke the plain model for the final grounded
answer. -/
def runTurn (ragModel baseModel : List Message → ModelResponse)
    (registry : ToolRegistry) (request : String) :
    Except (TurnState × TurnError) TurnOutcome :=
  let msgs := initialMessages request
  let resp := ragModel msgs
  match resp.tool_calls with
  | [] => .ok ⟨.DONE, msgs, [], resp.content⟩
  | tc :: _ =>
    match dispatch registry tc with
    | .error (.unknownTool n) => .error (.TOOL_REQUESTED, .unknownTool n)
    | .error (.keyError key) => .error (.TOOL_EXECUTED, .keyError key)
    | .ok result =>
      let msgs2 := msgs ++
        [⟨.assistant, resp.content, none⟩,
         ⟨.tool, result.payload, some result.call_id⟩]
      .ok ⟨.DONE, msgs2, [tc], (baseModel msgs2).content⟩

/-! ### Concrete instances used to exercise the development -/

/-- A corpus record about bonds, with the `Headline` metadata entry the
Bloomberg corpus carries. -/
def docBonds : DocumentRecord :=
  ⟨"doc-bonds", "bond market outlook", [("Headline", "Bonds rally")]⟩

/-- A corpus record about the technology sector. -/
def docTech : DocumentRecord :=
  ⟨"doc-tech", "tech sector market trends", [("Headline", "Tech up")]⟩

/-- A record whose metadata lacks the `Headline` key. -/
def docNoHeadline : DocumentRecord :=
  ⟨"doc-raw", "unlabelled text", [("Source", "wire")]⟩

/-- Two records sharing one id. -/
def dupA : DocumentRecord := ⟨"same-id", "first text", [("Headline", "A")]⟩

/-- The second record with the shared id. -/
def dupB : DocumentRecord := ⟨"same-id", "second text", [("Headline", "B")]⟩

/-- A concrete embedding function: the text length as a one-dimensional
vector. -/
def embedLen : String → List ℚ := fun t => [(t.length : ℚ)]

/-- A concrete similarity function scoring every pair alike; it forces
ties, exercising the insertion-order tie-break. -/
def simZero : List ℚ → List ℚ → ℚ := fun _ _ => 0

/-- A built collection holding the two labelled records. -/
def demoState : ChromaState :=
  ⟨[(docBonds, embedLen docBonds.text), (docTech, embedLen docTech.text)]⟩

/-- The collection after building from `[docTech]` alone. -/
def demoTechState : ChromaState := ⟨[(docTech, embedLen docTech.text)]⟩

/-- The collection after building from `[docBonds]` alone. -/
def demoBondsState : ChromaState := ⟨[(docBonds, embedLen docBonds.text)]⟩

/-- A handler that retrieves the bonds record for any arguments. -/
def demoHandler : List (String × String) → List DocumentRecord :=
  fun _ => [docBonds]

/-- A registry holding the single `retrieval` tool, as `tools_by_name`
holds the one decorated tool. -/
def demoRegistry : ToolRegistry := [("retrieval", demoHandler)]

/-- A tool-call request for the registered tool, with
`call_id = "abc123"`. -/
def demoToolCall : ToolCallRequest :=
  ⟨"retrieval", [("retrieval_query", "bond market outlook")], "abc123"⟩

/-- A tool-call request naming a tool absent from the registry. -/
def demoBadCall : ToolCallRequest := ⟨"web_search", [], "xyz"⟩

/-- The payload `documents_str` produces for the bonds record. -/
def demoPayload : String := "Bonds rally\n\nbond market outlook\n"

/-- A tool-aware model stub that always requests the registered tool. -/
def ragModelStub : List Message → ModelResponse :=
  fun _ => ⟨"", [demoToolCall]⟩

/-- A tool-aware model stub that requests an unregistered tool. -/
def ragModelBad : List Message → ModelResponse :=
  fun _ => ⟨"", [demoBadCall]⟩

/-- A plain model stub producing a final answer. -/
def baseModelStub : List Message → ModelResponse :=
  fun _ => ⟨"final grounded answer", []⟩

/-! ### Properties of the ranked similarity scan -/

lemma rankRel_score_le {a b : ℕ × DocumentRecord × ℚ} (h : rankRel a b) :
    b.2.2 ≤ a.2.2 := by
  simp only [rankRel, rankLE, Bool.or_eq_true, Bool.and_eq_true,
    decide_eq_true_eq] at h
  rcases h with h | ⟨h, _⟩
  · exact le_of_lt h
  · exact le_of_eq h.symm

lemma rankedEntries_perm (sim : List ℚ → List ℚ → ℚ) (s : ChromaState)
    (v : List ℚ) : (rankedEntries sim s v).Perm (scoredEntries sim s v) :=
  List.perm_insertionSort rankRel (scoredEntries sim s v)

lemma length_rankedEntries (sim : List ℚ → List ℚ → ℚ) (s : ChromaState)
    (v : List ℚ) : (rankedEntries sim s v).length = s.entries.length := by
  rw [(rankedEntries_perm sim s v).length_eq]
  simp [scoredEntries]

lemma rankedEntries_sorted (sim : List ℚ → List ℚ → ℚ) (s : ChromaState)
    (v : List ℚ) : (rankedEntries sim s v).Pairwise rankRel :=
  List.sorted_insertionSort rankRel (scoredEntries sim s v)

lemma rankedEntries_map_rec_perm (sim : List ℚ → List ℚ → ℚ)
    (s : ChromaState) (v : List ℚ) :
    ((rankedEntries sim s v).map (fun t => t.2.1)).Perm
      (s.entries.map Prod.fst) := by
  have h1 := (rankedEntries_perm sim s v).map (fun t => t.2.1)
  have h2 : (scoredEntries sim s v).map (fun t => t.2.1) =
      s.entries.map Prod.fst := by
    conv_rhs => rw [← List.enum_map_snd s.entries]
    rw [scoredEntries, List.map_map, List.map_map]
    simp [Function.comp]
  rwa [h2] at h1

lemma rankedEntries_map_fst_nodup (sim : List ℚ → List ℚ → ℚ)
    (s : ChromaState) (v : List ℚ) :
    ((rankedEntries sim s v).map Prod.fst).Nodup := by
  have h1 := (rankedEntries_perm sim s v).map (Prod.fst)
  have h2 : (scoredEntries sim s v).map Prod.fst =
      List.range s.entries.length := by
    rw [scoredEntries, List.map_map]
    have h3 : List.map (Prod.fst ∘ fun p => (p.1, p.2.1, sim v p.2.2))
        s.entries.enum = List.map Prod.fst s.entries.enum :=
      List.map_congr_left (fun p _ => rfl)
    rw [h3, List.enum_map_fst]
  rw [h1.nodup_iff, h2]
  exact List.nodup_range _

lemma length_queryList (sim : List ℚ → List ℚ → ℚ) (s : ChromaState)
    (v : List ℚ) (k : ℕ) :
    (queryList sim s v k).length = min k s.entries.length := by
  simp [queryList, List.length_take, length_rankedEntries]

lemma queryList_sorted (sim : List ℚ → List ℚ → ℚ) (s : ChromaState)
    (v : List ℚ) (k : ℕ) :
    (queryList sim s v k).Pairwise
      (fun a b : DocumentRecord × ℚ => b.2 ≤ a.2) := by
  rw [queryList]
  exact List.Pairwise.map _ (fun a b hab => rankRel_score_le hab)
    (List.Pairwise.sublist (List.take_sublist _ _)
      (rankedEntries_sorted sim s v))

lemma mem_queryList_rec (sim : List ℚ → List ℚ → ℚ) (s : ChromaState)
    (v : List ℚ) (k : ℕ) {r : DocumentRecord} {sc : ℚ}
    (h : (r, sc) ∈ queryList sim s v k) : r ∈ s.entries.map Prod.fst := by
  rw [queryList] at h
  rcases List.mem_map.mp h with ⟨t, ht, hteq⟩
  have ht2 : t ∈ rankedEntries sim s v := List.take_subset _ _ ht
  have hr : r = t.2.1 := by
    have := congrArg Prod.fst hteq
    simpa using this.symm
  have hmem : t.2.1 ∈ (rankedEntries sim s v).map (fun t => t.2.1) :=
    List.mem_map_of_mem _ ht2
  rw [hr]
  exact (rankedEntries_map_rec_perm sim s v).mem_iff.mp hmem

lemma initialize_vector_store_eq (embed : String → List ℚ)
    (chunks : List DocumentRecord) (s : ChromaState) :
    initialize_vector_store embed chunks s =
      .ok ⟨chunks.map (fun c => (c, embed c.text))⟩ := by
  simp [initialize_vector_store, from_documents, reset_collection]

/-! ### Claim theorems -/

/-- C1: on a built (nonempty) index and positive `k`, `query(v, k)` raises
no error and returns exactly `min k index_size` results sorted by
non-increasing similarity; when `k` is at least the index size, every
stored record is among the results. -/
theorem query_topk_sorted_complete (sim : List ℚ → List ℚ → ℚ)
    (s : ChromaState) (v : List ℚ) (k : ℤ)
    (hne : s.entries ≠ []) (hk : 0 < k) :
    ∃ res, query sim s v k = .ok res ∧
      res.length = min k.toNat s.entries.length ∧
      res.Pairwise (fun a b : DocumentRecord × ℚ => b.2 ≤ a.2) ∧
      (s.entries.length ≤ k.toNat →
        ∀ r ∈ s.entries.map Prod.fst, r ∈ res.map Prod.fst) := by
  refine ⟨queryList sim s v k.toNat, ?_,
    length_queryList sim s v k.toNat, queryList_sorted sim s v k.toNat, ?_⟩
  · rw [query, if_neg hne, if_neg (not_le.mpr hk)]
  · intro hle r hr
    have htake : (rankedEntries sim s v).take k.toNat =
        rankedEntries sim s v :=
      List.take_of_length_le (by rw [length_rankedEntries]; exact hle)
    have hmap : (queryList sim s v k.toNat).map Prod.fst =
        (rankedEntries sim s v).map (fun t => t.2.1) := by
      rw [queryList, htake, List.map_map]
      exact List.map_congr_left (fun p _ => rfl)
    rw [hmap]
    exact (rankedEntries_map_rec_perm sim s v).mem_iff.mpr hr

/-- C1 witness: the two-record demo index queried with `k = 5` — all
hypotheses hold at this input and the theorem applies. -/
theorem query_topk_sorted_complete_witness :
    demoState.entries ≠ [] ∧ (0 : ℤ) < 5 ∧
    (∃ res, query simZero demoState [0] 5 = .ok res ∧
      res.length = min (5 : ℤ).toNat demoState.entries.length ∧
      res.Pairwise (fun a b : DocumentRecord × ℚ => b.2 ≤ a.2) ∧
      (demoState.entries.length ≤ (5 : ℤ).toNat →
        ∀ r ∈ demoState.entries.map Prod.fst, r ∈ res.map Prod.fst)) :=
  ⟨by decide, by decide,
    query_topk_sorted_complete simZero demoState [0] 5 (by decide) (by decide)⟩

/-- C9: `initialize_vector_store` unconditionally clears the collection
before building: for every prior state it returns `ok` (never raises) and
the resulting index holds exactly one vector per chunk of this call, as if
only this call had happened. -/
theorem initialize_vector_store_fresh (embed : String → List ℚ)
    (chunks : List DocumentRecord) (s : ChromaState) :
    initialize_vector_store embed chunks s =
      .ok ⟨chunks.map (fun c => (c, embed c.text))⟩ :=
  initialize_vector_store_eq embed chunks s

/-- C4 counterexample: building a second time without a reset does not
fail with `AlreadyBuiltError` — at this concrete input the second
`initialize_vector_store` call succeeds and returns the second corpus. -/
theorem second_build_succeeds_counterexample :
    initialize_vector_store embedLen [docTech] ⟨[]⟩ = .ok demoTechState ∧
    initialize_vector_store embedLen [docBonds] demoTechState =
      .ok demoBondsState ∧
    initialize_vector_store embedLen [docBonds] demoTechState ≠
      .error BuildError.alreadyBuilt := by
  refine ⟨rfl, rfl, fun h => Except.noConfusion h⟩

/-- C4 amended: calling build on an already-built collection does not
fail; `initialize_vector_store` resets the collection first, so the
rebuild is independent of the prior state and yields exactly one vector
per chunk of the new corpus (no duplication). -/
theorem rebuild_without_reset_replaces (embed : String → List ℚ)
    (c1 c2 : List DocumentRecord) (s s1 : ChromaState)
    (_h : initialize_vector_store embed c1 s = .ok s1) :
    initialize_vector_store embed c2 s1 =
      initialize_vector_store embed c2 ⟨[]⟩ ∧
    initialize_vector_store embed c2 s1 =
      .ok ⟨c2.map (fun c => (c, embed c.text))⟩ := by
  constructor <;> simp [initialize_vector_store, from_documents,
    reset_collection]

/-- C4 amended witness: rebuilding the demo collection with the bonds
corpus after it was built with the tech corpus. -/
theorem rebuild_without_reset_replaces_witness :
    initialize_vector_store embedLen [docTech] ⟨[]⟩ = .ok demoTechState ∧
    (initialize_vector_store embedLen [docBonds] demoTechState =
      initialize_vector_store embedLen [docBonds] ⟨[]⟩ ∧
    initialize_vector_store embedLen [docBonds] demoTechState =
      .ok ⟨[docBonds].map (fun c => (c, embedLen c.text))⟩) :=
  ⟨rfl,
    rebuild_without_reset_replaces embedLen [docTech] [docBonds] ⟨[]⟩
      demoTechState rfl⟩

/-- C8 counterexample: a readable source holding two records with the same
id is returned unchanged by `load_documents` — no `LoadError` is raised
for duplicate ids. -/
theorem load_documents_no_duplicate_check :
    dupA.id = dupB.id ∧ dupA ≠ dupB ∧
    load_documents (some [dupA, dupB]) = .ok [dupA, dupB] :=
  ⟨rfl, by decide, rfl⟩

/-- C8 amended: `load_documents` fails with `LoadError` exactly when the
source is unreadable; a readable source's records are returned as-is, with
no duplicate-id or required-metadata validation. -/
theorem load_documents_behaviour (recs : List DocumentRecord) :
    load_documents (some recs) = .ok recs ∧
    load_documents none = .error .unreadable :=
  ⟨rfl, rfl⟩

/-- C6: after a reset-and-build with a new corpus, every record a
successful query returns is of the new corpus — and for a corpus disjoint
from the discarded one, never of the discarded corpus — and
`reset_collection` is idempotent. -/
theorem rebuild_queries_new_corpus (sim : List ℚ → List ℚ → ℚ)
    (embed : String → List ℚ) (s0 s1 : ChromaState)
    (c_new : List DocumentRecord)
    (hbuild : initialize_vector_store embed c_new s0 = .ok s1)
    (hdisj : ∀ r ∈ c_new, r ∉ s0.entries.map Prod.fst)
    (v : List ℚ) (k : ℤ) (res : List (DocumentRecord × ℚ))
    (hq : query sim s1 v k = .ok res) (r : DocumentRecord) (sc : ℚ)
    (hmem : (r, sc) ∈ res) :
    r ∈ c_new ∧ r ∉ s0.entries.map Prod.fst ∧
    reset_collection (reset_collection s0) = reset_collection s0 := by
  have hs1 : s1 = ⟨c_new.map (fun c => (c, embed c.text))⟩ := by
    have hb := hbuild
    rw [initialize_vector_store_eq] at hb
    exact (Except.ok.inj hb).symm
  by_cases h1 : s1.entries = []
  · rw [query, if_pos h1] at hq
    exact Except.noConfusion hq
  by_cases h2 : k ≤ 0
  · rw [query, if_neg h1, if_pos h2] at hq
    exact Except.noConfusion hq
  rw [query, if_neg h1, if_neg h2] at hq
  have hres : res = queryList sim s1 v k.toNat := (Except.ok.inj hq).symm
  rw [hres] at hmem
  have hr1 : r ∈ s1.entries.map Prod.fst :=
    mem_queryList_rec sim s1 v k.toNat hmem
  rw [hs1] at hr1
  have hr2 : r ∈ c_new := by simpa using hr1
  exact ⟨hr2, hdisj r hr2, rfl⟩

/-- C6 witness: replacing the tech corpus with the bonds corpus; the one
record the query returns is of the new corpus. -/
theorem rebuild_queries_new_corpus_witness :
    initialize_vector_store embedLen [docBonds] demoTechState =
      .ok demoBondsState ∧
    (∀ r ∈ [docBonds], r ∉ demoTechState.entries.map Prod.fst) ∧
    query simZero demoBondsState [0] 1 = .ok [(docBonds, 0)] ∧
    (docBonds, (0 : ℚ)) ∈ [(docBonds, (0 : ℚ))] ∧
    (docBonds ∈ [docBonds] ∧
      docBonds ∉ demoTechState.entries.map Prod.fst ∧
      reset_collection (reset_collection demoTechState) =
        reset_collection demoTechState) :=
  ⟨rfl, by decide, rfl, by decide,
    rebuild_queries_new_corpus simZero embedLen demoTechState demoBondsState
      [docBonds] rfl (by decide) [0] 1 [(docBonds, 0)] rfl docBonds 0
      (by decide)⟩

/-- C7: retrieval is deterministic — the same query text against the
unchanged index yields the same ordered results — and similarity ties in
the ranked scan are broken by original insertion order: of two tied
entries, the one at the earlier output position carries the strictly
smaller insertion index. -/
theorem retrieve_deterministic_stable (sim : List ℚ → List ℚ → ℚ)
    (embed : String → List ℚ) (s : ChromaState) (k : ℤ) (q : String)
    (p r : ℕ) (a b : ℕ × DocumentRecord × ℚ) (hpr : p < r)
    (hp : (rankedEntries sim s (embed q)).get? p = some a)
    (hr : (rankedEntries sim s (embed q)).get? r = some b)
    (heq : a.2.2 = b.2.2) :
    retrieve sim embed s k q = retrieve sim embed s k q ∧ a.1 < b.1 := by
  refine ⟨rfl, ?_⟩
  rcases List.get?_eq_some.mp hp with ⟨hpl, hpa⟩
  rcases List.get?_eq_some.mp hr with ⟨hrl, hrb⟩
  have hrel : rankRel a b := by
    have hpair := (List.pairwise_iff_get.mp
      (rankedEntries_sorted sim s (embed q))) ⟨p, hpl⟩ ⟨r, hrl⟩ hpr
    rwa [hpa, hrb] at hpair
  have hle : a.1 ≤ b.1 := by
    simp only [rankRel, rankLE, Bool.or_eq_true, Bool.and_eq_true,
      decide_eq_true_eq] at hrel
    rcases hrel with hlt | ⟨_, hle⟩
    · rw [heq] at hlt
      exact absurd hlt (lt_irrefl _)
    · exact hle
  rcases lt_or_eq_of_le hle with hlt | hfst
  · exact hlt
  · exfalso
    have hinj := List.nodup_iff_injective_get.mp
      (rankedEntries_map_fst_nodup sim s (embed q))
    have hplen : p < ((rankedEntries sim s (embed q)).map Prod.fst).length := by
      rw [List.length_map]
      exact hpl
    have hrlen : r < ((rankedEntries sim s (embed q)).map Prod.fst).length := by
      rw [List.length_map]
      exact hrl
    have e1 : ((rankedEntries sim s (embed q)).map Prod.fst).get ⟨p, hplen⟩ =
        a.1 := by
      rw [List.get_map]
      exact congrArg Prod.fst hpa
    have e2 : ((rankedEntries sim s (embed q)).map Prod.fst).get ⟨r, hrlen⟩ =
        b.1 := by
      rw [List.get_map]
      exact congrArg Prod.fst hrb
    have hfin : (⟨p, hplen⟩ : Fin _) = ⟨r, hrlen⟩ :=
      hinj (by rw [e1, e2, hfst])
    exact absurd (congrArg Fin.val hfin) (Nat.ne_of_lt hpr)

/-- C7 witness: under a constant similarity both demo records tie; the
ranked scan keeps them in insertion order. -/
theorem retrieve_deterministic_stable_witness :
    (0 : ℕ) < 1 ∧
    (rankedEntries simZero demoState (embedLen "q")).get? 0 =
      some (0, docBonds, 0) ∧
    (rankedEntries simZero demoState (embedLen "q")).get? 1 =
      some (1, docTech, 0) ∧
    ((0 : ℕ), docBonds, (0 : ℚ)).2.2 = ((1 : ℕ), docTech, (0 : ℚ)).2.2 ∧
    (retrieve simZero embedLen demoState 3 "q" =
      retrieve simZero embedLen demoState 3 "q" ∧
      ((0 : ℕ), docBonds, (0 : ℚ)).1 < ((1 : ℕ), docTech, (0 : ℚ)).1) :=
  ⟨by decide, by decide, by decide, rfl,
    retrieve_deterministic_stable simZero embedLen demoState 3 "q" 0 1
      (0, docBonds, 0) (1, docTech, 0) (by decide) (by decide) (by decide)
      rfl⟩

/-- Auxiliary: the document-formatting comprehension fails with the
`Headline` `KeyError` whenever some document lacks the key. -/
lemma formatDocs_missing (docs : List DocumentRecord) :
    (∃ d ∈ docs, List.lookup "Headline" d.metadata = none) →
    formatDocs docs = .error (.keyError "Headline") := by
  induction docs with
  | nil =>
    intro h
    rcases h with ⟨d, hd, _⟩
    cases hd
  | cons d ds ih =>
    intro h
    rcases hl : List.lookup "Headline" d.metadata with _ | hdl
    · simp only [formatDocs, hl]
    · have h2 : ∃ d2 ∈ ds, List.lookup "Headline" d2.metadata = none := by
        rcases h with ⟨d2, hd2, hnone⟩
        rcases List.mem_cons.mp hd2 with heq2 | hmem2
        · subst heq2
          rw [hl] at hnone
          cases hnone
        · exact ⟨d2, hmem2, hnone⟩
      simp only [formatDocs, hl, ih h2]
      rfl

/-- C10: folding a retrieval result into the conversation requires every
retrieved document to carry a `Headline` metadata key: whenever one lacks
it, `documents_str` raises the `KeyError` instead of producing the tool
payload. -/
theorem documents_str_missing_headline (docs : List DocumentRecord)
    (h : ∃ d ∈ docs, List.lookup "Headline" d.metadata = none) :
    documents_str docs = .error (.keyError "Headline") := by
  rw [documents_str, formatDocs_missing docs h]
  rfl

/-- C10 witness: the record without a `Headline` key makes the formatting
step fail. -/
theorem documents_str_missing_headline_witness :
    (∃ d ∈ [docNoHeadline], List.lookup "Headline" d.metadata = none) ∧
    documents_str [docNoHeadline] = .error (.keyError "Headline") :=
  ⟨⟨docNoHeadline, by decide, rfl⟩,
    documents_str_missing_headline [docNoHeadline]
      ⟨docNoHeadline, by decide, rfl⟩⟩

/-- C2: when the tool-aware model's response carries one or more tool-call
requests (the first of them registered and formattable), the orchestrator
dispatches only the first request through the registry, the dispatch log
holds exactly that one call, the final ConversationState contains exactly
one tool-role message, and the turn reaches DONE. -/
theorem orchestrator_single_tool_round
    (ragModel baseModel : List Message → ModelResponse)
    (registry : ToolRegistry) (request : String)
    (tc : ToolCallRequest) (rest : List ToolCallRequest)
    (handler : List (String × String) → List DocumentRecord)
    (payload : String)
    (hcalls : (ragModel (initialMessages request)).tool_calls = tc :: rest)
    (hreg : registry.lookup tc.name = some handler)
    (hfmt : documents_str (handler tc.args) = .ok payload) :
    ∃ outcome, runTurn ragModel baseModel registry request = .ok outcome ∧
      outcome.dispatchLog = [tc] ∧
      (outcome.messages.filter (fun m => m.role == Role.tool)).length = 1 ∧
      outcome.state = .DONE := by
  have hdisp : dispatch registry tc = .ok ⟨tc.call_id, payload⟩ := by
    simp only [dispatch, hreg, hfmt]
  refine ⟨⟨.DONE,
    initialMessages request ++
      [⟨.assistant, (ragModel (initialMessages request)).content, none⟩,
       ⟨.tool, payload, some tc.call_id⟩], [tc],
    (baseModel (initialMessages request ++
      [⟨.assistant, (ragModel (initialMessages request)).content, none⟩,
       ⟨.tool, payload, some tc.call_id⟩])).content⟩, ?_, rfl, ?_, rfl⟩
  · simp only [runTurn, hcalls, hdisp]
  · simp [initialMessages, List.filter,
      show (Role.system == Role.tool) = false from rfl,
      show (Role.user == Role.tool) = false from rfl,
      show (Role.assistant == Role.tool) = false from rfl,
      show (Role.tool == Role.tool) = true from rfl]

/-- C2 witness: the stub model requests the registered retrieval tool once
and the orchestrated turn reaches DONE with one tool message. -/
theorem orchestrator_single_tool_round_witness :
    (ragModelStub (initialMessages "req")).tool_calls = demoToolCall :: [] ∧
    List.lookup demoToolCall.name demoRegistry = some demoHandler ∧
    documents_str (demoHandler demoToolCall.args) = .ok demoPayload ∧
    (∃ outcome,
      runTurn ragModelStub baseModelStub demoRegistry "req" = .ok outcome ∧
      outcome.dispatchLog = [demoToolCall] ∧
      (outcome.messages.filter (fun m => m.role == Role.tool)).length = 1 ∧
      outcome.state = .DONE) :=
  ⟨rfl, rfl, rfl,
    orchestrator_single_tool_round ragModelStub baseModelStub demoRegistry
      "req" demoToolCall [] demoHandler demoPayload rfl rfl rfl⟩

/-- C3: a tool-call request naming an unregistered tool makes `dispatch`
fail with `UnknownToolError`, and the whole turn aborts with that error
surfaced at state TOOL_REQUESTED — no fallback answer, no advance to
TOOL_EXECUTED. -/
theorem unknown_tool_aborts_turn
    (ragModel baseModel : List Message → ModelResponse)
    (registry : ToolRegistry) (request : String)
    (tc : ToolCallRequest) (rest : List ToolCallRequest)
    (hcalls : (ragModel (initialMessages request)).tool_calls = tc :: rest)
    (hreg : registry.lookup tc.name = none) :
    dispatch registry tc = .error (.unknownTool tc.name) ∧
    runTurn ragModel baseModel registry request =
      .error (.TOOL_REQUESTED, .unknownTool tc.name) := by
  have hdisp : dispatch registry tc = .error (.unknownTool tc.name) := by
    simp only [dispatch, hreg]
  exact ⟨hdisp, by simp only [runTurn, hcalls, hdisp]⟩

/-- C3 witness: a request for the unregistered `web_search` tool aborts
the demo turn at TOOL_REQUESTED. -/
theorem unknown_tool_aborts_turn_witness :
    (ragModelBad (initialMessages "req")).tool_calls = demoBadCall :: [] ∧
    List.lookup demoBadCall.name demoRegistry = none ∧
    (dispatch demoRegistry demoBadCall =
      .error (.unknownTool demoBadCall.name) ∧
    runTurn ragModelBad baseModelStub demoRegistry "req" =
      .error (.TOOL_REQUESTED, .unknownTool demoBadCall.name)) :=
  ⟨rfl, rfl,
    unknown_tool_aborts_turn ragModelBad baseModelStub demoRegistry "req"
      demoBadCall [] rfl rfl⟩

/-- C5: `dispatch` preserves the request's `call_id` into the result
unchanged. -/
theorem dispatch_preserves_call_id (registry : ToolRegistry)
    (req : ToolCallRequest) (res : ToolCallResult)
    (h : dispatch registry req = .ok res) : res.call_id = req.call_id := by
  simp only [dispatch] at h
  rcases hl : registry.lookup req.name with _ | handler
  · rw [hl] at h
    exact Except.noConfusion h
  · simp only [hl] at h
    rcases hf : documents_str (handler req.args) with e | payload
    · rw [hf] at h
      exact Except.noConfusion h
    · simp only [hf] at h
      rw [← Except.ok.inj h]

/-- C5 witness: a request with `call_id = "abc123"` yields a result with
`call_id = "abc123"`. -/
theorem dispatch_preserves_call_id_witness :
    dispatch demoRegistry demoToolCall =
      .ok ⟨"abc123", demoPayload⟩ ∧
    (ToolCallResult.mk "abc123" demoPayload).call_id =
      demoToolCall.call_id :=
  ⟨rfl, dispatch_preserves_call_id demoRegistry demoToolCall
    ⟨"abc123", demoPayload⟩ rfl⟩
